import Mathlib

/-
Verification of the naspch_bot text-linting pipeline.

Shallow embedding of the Python sources:
  src/utils/message_validator.py   -> isRaytersMessage, extractTextToCheck, validateAndExtract
  src/checkers/custom_rules_checker.py -> customRulesCheck
  src/checkers/space_checker.py    -> spaceCheck
  src/checkers/spelling_checker.py -> spellingFormatErrors
  src/checkers/channel_rules_checker.py -> channelCheck
  src/utils/formatter.py           -> formatReport
  src/text_checker.py              -> performChecks, checkTextCore
  src/utils/config_loader.py       -> loadStep (reload state machine)

Python strings are modelled as Lean String (a list of chars); the character
classes used by the regexes of the code (whitespace, word chars, the letter
class of the space checker, Cyrillic lowercasing) are modelled explicitly for
the ASCII and Cyrillic ranges the program works with.
-/

/-- Model of Python str whitespace (`\s`, `str.strip`) for the characters the
program handles: space, tab, newline, carriage return, vertical tab, form feed. -/
def pyIsSpace (c : Char) : Bool :=
  c == ' ' || c == '\t' || c == '\n' || c == '\r' || c == '\x0b' || c == '\x0c'

/-- Model of Python `str.lower` / `re.IGNORECASE` folding on ASCII and Cyrillic. -/
def pyToLower (c : Char) : Char :=
  let n := c.toNat
  if 65 ≤ n && n ≤ 90 then Char.ofNat (n + 32)
  else if 0x410 ≤ n && n ≤ 0x42F then Char.ofNat (n + 32)
  else if n == 0x401 then Char.ofNat 0x451
  else c

/-- Model of Python regex `\w` (word character) on ASCII and Cyrillic. -/
def pyIsWordChar (c : Char) : Bool :=
  let n := c.toNat
  (48 ≤ n && n ≤ 57) || (65 ≤ n && n ≤ 90) || (97 ≤ n && n ≤ 122) || c == '_' ||
    (0x410 ≤ n && n ≤ 0x44F) || n == 0x401 || n == 0x451

/-- Lowercase a whole string, as Python `str.lower()`. -/
def strToLower (s : String) : String :=
  ⟨s.data.map pyToLower⟩

/-- Python `text.split("\n", 1)`: the first line and, when a line break
exists, everything after the first line break. -/
def splitFirstLine : List Char → List Char × Option (List Char)
  | [] => ([], none)
  | c :: rest =>
    if c = '\n' then ([], some rest)
    else
      let p := splitFirstLine rest
      (c :: p.1, p.2)

/-- Python `str.strip()`: drop leading and trailing whitespace. -/
def pyStrip (l : List Char) : List Char :=
  ((l.dropWhile pyIsSpace).reverse.dropWhile pyIsSpace).reverse

/-- Substring containment on char lists (Python `needle in hay`). -/
def listContainsSub (needle : List Char) : List Char → Bool
  | [] => needle.isEmpty
  | c :: rest => needle.isPrefixOf (c :: rest) || listContainsSub needle rest

/-- Does the regex `t\.me/\S+` match here: the literal `t.me/` followed by at
least one non-whitespace character. -/
def tmeLinkAt (l : List Char) : Bool :=
  "t.me/".data.isPrefixOf l &&
    (match l.drop 5 with
     | [] => false
     | d :: _ => !pyIsSpace d)

/-- `re.search(r"t\.me/\S+", line)`: scan every start position. -/
def hasTmeLink : List Char → Bool
  | [] => false
  | c :: rest => tmeLinkAt (c :: rest) || hasTmeLink rest

/-- MessageValidator.is_rayters_message: empty text is rejected, otherwise the
first line must contain a `t.me/<nonspace>` link. -/
def isRaytersMessage (text : String) : Bool :=
  if text = "" then false
  else hasTmeLink (splitFirstLine text.data).1

/-- MessageValidator.extract_text_to_check: everything after the first line
break, rejected when absent or when its stripped length is below the minimum. -/
def extractTextToCheck (minLen : Nat) (text : String) : Option String :=
  match (splitFirstLine text.data).2 with
  | none => none
  | some rest => if (pyStrip rest).length < minLen then none else some ⟨rest⟩

/-- MessageValidator.validate_and_extract. -/
def validateAndExtract (minLen : Nat) (text : String) : Bool × Option String :=
  if isRaytersMessage text = false then (false, none)
  else
    match extractTextToCheck minLen text with
    | none => (false, none)
    | some b => (true, some b)

/-- One custom rule: `{wrong, correct, case_sensitive}`. -/
structure CustomRule where
  wrong : String
  correct : String
  case_sensitive : Bool
deriving DecidableEq, Repr

/-- A finding of the custom-rules checker or the space checker: the dict
`{type, word, suggestion, message}` built by the Python code. -/
structure WordError where
  type : String
  word : String
  suggestion : String
  message : String
deriving DecidableEq, Repr

/-- Case-insensitive (or sensitive) literal prefix test, as the regex engine
matches `re.escape(wrong)` under optional `re.IGNORECASE`. -/
def isPrefixCI (cs : Bool) : List Char → List Char → Bool
  | [], _ => true
  | _ :: _, [] => false
  | p :: ps, c :: rest =>
    (if cs then p == c else pyToLower p == pyToLower c) && isPrefixCI cs ps rest

/-- `re.finditer` over a literal pattern: leftmost, non-overlapping matches.
Fuel-driven so the definition evaluates in the kernel; each step consumes at
least one character, so fuel equal to the text length is enough. -/
def scanMatchesF (cs : Bool) (pat : List Char) : Nat → List Char → List (List Char)
  | 0, _ => []
  | _ + 1, [] => []
  | fuel + 1, c :: rest =>
    if isPrefixCI cs pat (c :: rest) then
      (c :: rest).take pat.length :: scanMatchesF cs pat fuel (rest.drop (pat.length - 1))
    else
      scanMatchesF cs pat fuel rest

/-- All non-overlapping matches of the literal pattern in the text. -/
def scanMatches (cs : Bool) (pat : List Char) (l : List Char) : List (List Char) :=
  scanMatchesF cs pat l.length l

/-- CustomRulesChecker.check: rules with an empty `wrong` or `correct` are
skipped; each occurrence yields one finding whose word is the actual matched
substring and whose suggestion is the rule's `correct`. -/
def customRulesCheck (rules : List CustomRule) (text : String) : List WordError :=
  (rules.map (fun r =>
    if r.wrong = "" ∨ r.correct = "" then []
    else
      (scanMatches r.case_sensitive r.wrong.data text.data).map (fun m =>
        { type := "custom", word := ⟨m⟩, suggestion := r.correct,
          message := "Неправильное написание" }))).flatten

/-- The regex `t\.me/\S+` matches somewhere in `l`, stated positionally:
at some offset the literal `t.me/` is a prefix and a non-whitespace character
follows it. -/
def HasTme (l : List Char) : Prop :=
  ∃ i, "t.me/".data <+: l.drop i ∧
    ∃ c, ((l.drop i).drop 5).head? = some c ∧ pyIsSpace c = false

theorem tmeLinkAt_iff (l : List Char) :
    tmeLinkAt l = true ↔
      ("t.me/".data <+: l ∧ ∃ c, (l.drop 5).head? = some c ∧ pyIsSpace c = false) := by
  unfold tmeLinkAt
  rw [Bool.and_eq_true, List.isPrefixOf_iff_prefix]
  constructor
  · rintro ⟨hpre, hrest⟩
    refine ⟨hpre, ?_⟩
    cases h : l.drop 5 with
    | nil => rw [h] at hrest; simp at hrest
    | cons d ds =>
      rw [h] at hrest
      simp only [Bool.not_eq_true'] at hrest
      exact ⟨d, by simp [h], hrest⟩
  · rintro ⟨hpre, c, hc, hns⟩
    refine ⟨hpre, ?_⟩
    cases h : l.drop 5 with
    | nil => rw [h] at hc; simp at hc
    | cons d ds =>
      rw [h] at hc
      simp only [List.head?_cons, Option.some.injEq] at hc
      subst hc
      simp [hns]

theorem hasTmeLink_iff (l : List Char) : hasTmeLink l = true ↔ HasTme l := by
  induction l with
  | nil =>
    simp only [hasTmeLink, HasTme]
    constructor
    · intro h; exact absurd h (by simp)
    · rintro ⟨i, hpre, _⟩
      simp only [List.drop_nil] at hpre
      have := hpre.length_le
      simp at this
  | cons c rest ih =>
    simp only [hasTmeLink, Bool.or_eq_true, ih]
    constructor
    · rintro (h | ⟨i, hi⟩)
      · exact ⟨0, by simpa using (tmeLinkAt_iff (c :: rest)).mp h⟩
      · exact ⟨i + 1, by simpa using hi⟩
    · rintro ⟨i, hi⟩
      cases i with
      | zero =>
        left
        exact (tmeLinkAt_iff (c :: rest)).mpr (by simpa using hi)
      | succ j =>
        right
        exact ⟨j, by simpa using hi⟩

/-- Claim C3: for every input text, validate_and_extract reports reviewable
exactly when the first line contains `t.me/` followed by at least one
non-whitespace character, a second line exists, and the text after the first
line break has trimmed length at least `min_text_length`; otherwise it returns
not-reviewable with a null body; when reviewable, the body is exactly the text
after the first line break. -/
theorem validator_C3 (minLen : Nat) (text : String) :
    ((validateAndExtract minLen text).1 = true ↔
      (HasTme (splitFirstLine text.data).1 ∧
        ∃ rest, (splitFirstLine text.data).2 = some rest ∧
          minLen ≤ (pyStrip rest).length)) ∧
    ((validateAndExtract minLen text).1 = false →
      (validateAndExtract minLen text).2 = none) ∧
    (∀ rest, (splitFirstLine text.data).2 = some rest →
      (validateAndExtract minLen text).1 = true →
      (validateAndExtract minLen text).2 = some ⟨rest⟩) := by
  have hray : isRaytersMessage text = true ↔ HasTme (splitFirstLine text.data).1 := by
    unfold isRaytersMessage
    by_cases h : text = ""
    · subst h
      simp only [if_pos rfl]
      constructor
      · intro hfalse; exact absurd hfalse (by simp)
      · intro hh
        have : (splitFirstLine ("" : String).data).1 = [] := by rfl
        rw [this] at hh
        obtain ⟨i, hpre, _⟩ := hh
        simp only [List.drop_nil] at hpre
        have := hpre.length_le
        simp at this
    · rw [if_neg h]
      exact hasTmeLink_iff _
  refine ⟨?_, ?_, ?_⟩
  · unfold validateAndExtract
    by_cases h : isRaytersMessage text = false
    · simp only [h, if_pos rfl]
      constructor
      · intro hfalse; exact absurd hfalse (by simp)
      · rintro ⟨hh, _⟩
        rw [← hray] at hh
        rw [h] at hh
        exact absurd hh (by simp)
    · rw [if_neg h]
      rw [Bool.not_eq_false] at h
      unfold extractTextToCheck
      cases hsplit : (splitFirstLine text.data).2 with
      | none =>
        simp only []
        constructor
        · intro hfalse; exact absurd hfalse (by simp)
        · rintro ⟨_, rest, hrest, _⟩
          exact absurd hrest (by simp)
      | some rest =>
        simp only []
        by_cases hlen : (pyStrip rest).length < minLen
        · rw [if_pos hlen]
          constructor
          · intro hfalse; exact absurd hfalse (by simp)
          · rintro ⟨_, rest2, hrest2, hlen2⟩
            injection hrest2 with he
            subst he
            omega
        · rw [if_neg hlen]
          simp only [true_iff]
          exact ⟨hray.mp h, rest, rfl, by omega⟩
  · unfold validateAndExtract
    by_cases h : isRaytersMessage text = false
    · simp [h]
    · rw [if_neg h]
      cases hext : extractTextToCheck minLen text with
      | none => simp
      | some b => simp
  · intro rest hrest
    unfold validateAndExtract
    by_cases h : isRaytersMessage text = false
    · simp [h]
    · rw [if_neg h]
      unfold extractTextToCheck
      rw [hrest]
      by_cases hlen : (pyStrip rest).length < minLen
      · simp [hlen]
      · simp [hlen]

/-- Witness for C3 at a concrete reviewable input. -/
theorem validator_C3_witness :
    (validateAndExtract 5 ("t.me/x\nabcdefgh")).2 = some ("abcdefgh") := by
  exact (validator_C3 5 ("t.me/x\nabcdefgh")).2.2 ("abcdefgh").data (by decide) (by decide)

/-- Claim C7: with the single configured rule
wrong "Гига чат", correct "Гигачат", case-insensitive, the custom checker on
"Работает через ГИГА ЧАТ" returns exactly one finding whose matched word is
the actual substring "ГИГА ЧАТ" and whose suggestion is "Гигачат". -/
theorem custom_rules_C7 :
    customRulesCheck (⟨"Гига чат", "Гигачат", false⟩ :: []) ("Работает через ГИГА ЧАТ") =
      ⟨"custom", "ГИГА ЧАТ", "Гигачат", "Неправильное написание"⟩ :: [] := by
  decide

/-- The punctuation class `[,.!?;:]` of the space checker. -/
def isPunctMark (c : Char) : Bool :=
  c == ',' || c == '.' || c == '!' || c == '?' || c == ';' || c == ':'

/-- The letter class `[а-яА-ЯёЁa-zA-Z]` of the no-space-after-punctuation regex. -/
def isSigLetter (c : Char) : Bool :=
  let n := c.toNat
  (0x410 ≤ n && n ≤ 0x44F) || n == 0x401 || n == 0x451 ||
    (65 ≤ n && n ≤ 90) || (97 ≤ n && n ≤ 122)

/-- Regex `\S`. -/
def isNonSpace (c : Char) : Bool := !pyIsSpace c

/-- `re.finditer(r"(\S+)( {2,})(\S+)", text)`: a maximal non-whitespace run,
then a run of two or more space characters, then a non-whitespace run; the
greedy sub-patterns are disjoint so the engine never backtracks. Fuel-driven;
every recursive call strictly shortens the list, so fuel equal to the text
length is enough. -/
def scanMultiF : Nat → List Char → List WordError
  | 0, _ => []
  | _ + 1, [] => []
  | fuel + 1, c :: rest =>
    if pyIsSpace c then scanMultiF fuel rest
    else
      let t := c :: rest
      let a := t.takeWhile isNonSpace
      let r1 := t.dropWhile isNonSpace
      let s := r1.takeWhile (· == ' ')
      let r2 := r1.dropWhile (· == ' ')
      if 2 ≤ s.length && (match r2 with | [] => false | d :: _ => isNonSpace d) then
        let b := r2.takeWhile isNonSpace
        { type := "space", word := ⟨a ++ s ++ b⟩,
          suggestion := ⟨a ++ (' ' :: b)⟩,
          message := "Лишние пробелы (" ++ toString s.length ++ " подряд)" }
          :: scanMultiF fuel (r2.dropWhile isNonSpace)
      else scanMultiF fuel r1

def scanMulti (l : List Char) : List WordError := scanMultiF l.length l

/-- `re.finditer(r"(\S+)( +)([,.!?;:])", text)`: non-whitespace run, at least
one space, then a single punctuation mark; the match consumes the punctuation
mark and scanning resumes right after it. -/
def scanBeforeF : Nat → List Char → List WordError
  | 0, _ => []
  | _ + 1, [] => []
  | fuel + 1, c :: rest =>
    if pyIsSpace c then scanBeforeF fuel rest
    else
      let t := c :: rest
      let a := t.takeWhile isNonSpace
      let r1 := t.dropWhile isNonSpace
      let s := r1.takeWhile (· == ' ')
      let r2 := r1.dropWhile (· == ' ')
      match r2 with
      | p :: r3 =>
        if 1 ≤ s.length && isPunctMark p then
          { type := "space", word := ⟨a ++ s ++ (p :: [])⟩,
            suggestion := ⟨a ++ (p :: [])⟩,
            message := "Пробел перед \"" ++ String.mk (p :: []) ++ "\"" }
            :: scanBeforeF fuel r3
        else scanBeforeF fuel r1
      | [] => scanBeforeF fuel r1

def scanBefore (l : List Char) : List WordError := scanBeforeF l.length l

/-- A feasible split of a non-whitespace run for
`(\S+)([,.!?;:])([а-яА-ЯёЁa-zA-Z]\S*)`: position `k` holds the punctuation
mark, `k ≥ 1` keeps group one non-empty, and a letter follows. -/
def splitOkAt (run : List Char) (k : Nat) : Bool :=
  1 ≤ k && k + 1 < run.length &&
    isPunctMark (run.getD k ' ') && isSigLetter (run.getD (k + 1) ' ')

/-- The greedy `\S+` backtracks from the longest group one, so the engine
settles on the largest feasible split position. -/
def findSplitK (run : List Char) : Nat → Option Nat
  | 0 => none
  | k + 1 => if splitOkAt run (k + 1) then some (k + 1) else findSplitK run k

/-- `re.finditer(r"(\S+)([,.!?;:])([а-яА-ЯёЁa-zA-Z]\S*)", text)`: the whole
match lies inside one maximal non-whitespace run, split at the largest
feasible punctuation position; the run is consumed entirely. -/
def scanAfterF : Nat → List Char → List WordError
  | 0, _ => []
  | _ + 1, [] => []
  | fuel + 1, c :: rest =>
    if pyIsSpace c then scanAfterF fuel rest
    else
      let t := c :: rest
      let run := t.takeWhile isNonSpace
      let r1 := t.dropWhile isNonSpace
      match findSplitK run run.length with
      | some k =>
        let a := run.take k
        let p := run.getD k ' '
        let b := run.drop (k + 1)
        { type := "space", word := ⟨run⟩,
          suggestion := ⟨a ++ (p :: ' ' :: b)⟩,
          message := "Нет пробела после \"" ++ String.mk (p :: []) ++ "\"" }
          :: scanAfterF fuel r1
      | none => scanAfterF fuel r1

def scanAfter (l : List Char) : List WordError := scanAfterF l.length l

/-- The three space-check toggles of the configuration. -/
structure SpaceChecks where
  multiple_spaces : Bool
  space_before_punctuation : Bool
  no_space_after_punctuation : Bool
deriving DecidableEq, Repr

/-- SpaceChecker.check: the three sub-checks, each behind its toggle, their
results concatenated in the fixed order of the code. -/
def spaceCheck (sc : SpaceChecks) (text : String) : List WordError :=
  (if sc.multiple_spaces then scanMulti text.data else []) ++
    (if sc.space_before_punctuation then scanBefore text.data else []) ++
    (if sc.no_space_after_punctuation then scanAfter text.data else [])

def allSpaceChecks : SpaceChecks := ⟨true, true, true⟩

/-- Claim C8: with all three spacing sub-checks enabled, the double-space
input yields exactly one multiple-spaces finding with the collapsed
suggestion, the missing-space input yields exactly one no-space-after
finding, the clean sentence yields zero findings, and the sub-check results
are always concatenated in the fixed order multiple-spaces,
space-before-punctuation, no-space-after-punctuation. -/
theorem space_checker_C8 :
    (∀ text : String, spaceCheck allSpaceChecks text =
      scanMulti text.data ++ scanBefore text.data ++ scanAfter text.data) ∧
    spaceCheck allSpaceChecks ("Слово  слово") =
      ⟨"space", "Слово  слово", "Слово слово", "Лишние пробелы (2 подряд)"⟩ :: [] ∧
    spaceCheck allSpaceChecks ("Слово,слово") =
      ⟨"space", "Слово,слово", "Слово, слово", "Нет пробела после \",\""⟩ :: [] ∧
    spaceCheck allSpaceChecks ("Правильный текст, без ошибок.") = [] := by
  refine ⟨fun text => rfl, by decide, by decide, by decide⟩

/-- A channel finding: the dict `{type, message, expected}` built by
ChannelRulesChecker. -/
structure ChannelError where
  type : String
  message : String
  expected : String
deriving DecidableEq, Repr

/-- `re.search(r"@\w+", text)`: first position where `@` is followed by at
least one word character; the scan carries the character immediately before
the match (`none` at position zero) and returns it with the matched handle. -/
def handleMatchAt (c : Char) (rest : List Char) : Bool :=
  c == '@' && (match rest with | [] => false | d :: _ => pyIsWordChar d)

def handleSearchAux : Option Char → List Char → Option (Option Char × List Char)
  | _, [] => none
  | prev, c :: rest =>
    if handleMatchAt c rest then
      some (prev, '@' :: rest.takeWhile pyIsWordChar)
    else handleSearchAux (some c) rest

def handleSearch (l : List Char) : Option (Option Char × List Char) :=
  handleSearchAux none l

def missingSignatureError (name fmt : String) : ChannelError :=
  ⟨"channel_signature", "Отсутствует подпись канала для " ++ name, fmt⟩

def newlineSignatureError (sig : String) : ChannelError :=
  ⟨"channel_signature", "Подпись " ++ sig ++ " должна быть через перенос строки",
    "...текст\n" ++ sig⟩

def spaceSignatureError (sig : String) : ChannelError :=
  ⟨"channel_signature",
    "Подпись " ++ sig ++ " должна быть через пробел, а не на новой строке",
    "...текст " ++ sig⟩

/-- ChannelRulesChecker._check_signature_format: a missing handle is reported;
otherwise the mode is inferred from the rule text — the line-break instruction
branch first, then the space instruction branch, otherwise nothing. -/
def checkSignatureFormat (text fmt name : String) : List ChannelError :=
  match handleSearch text.data with
  | none => missingSignatureError name fmt :: []
  | some (prev, sig) =>
    if listContainsSub ("перенос строки").data (strToLower fmt).data then
      if prev = none ∨ ¬ prev = some '\n' then newlineSignatureError ⟨sig⟩ :: [] else []
    else if listContainsSub ("пробел").data (strToLower fmt).data then
      if prev = some '\n' then spaceSignatureError ⟨sig⟩ :: [] else []
    else []

/-- The capture of `\s+([^\(]+)`: at least one whitespace character, then a
greedy run of non-parenthesis characters; when only whitespace precedes the
parenthesis (or the end), the engine backtracks and the capture degenerates
to the last whitespace character. -/
def wsCapture (s : List Char) : Option (List Char) :=
  let w := s.takeWhile pyIsSpace
  let r := s.dropWhile pyIsSpace
  if w.length = 0 then none
  else
    match r with
    | d :: _ =>
      if d = '(' then (if 2 ≤ w.length then some (w.drop (w.length - 1)) else none)
      else some (r.takeWhile (fun x => !(x == '(')))
    | [] => if 2 ≤ w.length then some (w.drop (w.length - 1)) else none

/-- Does `re.search(r"ТГ-канал\s+([^\(]+)", line, re.IGNORECASE)` match at
this position. -/
def tgChannelAt (l : List Char) : Option (List Char) :=
  if isPrefixCI false ("ТГ-канал").data l then wsCapture (l.drop 8) else none

def tgChannelSearch : List Char → Option (List Char)
  | [] => none
  | c :: rest =>
    match tgChannelAt (c :: rest) with
    | some cap => some cap
    | none => tgChannelSearch rest

/-- ChannelRulesChecker._extract_channel_name: the stripped capture from the
first line, or the empty string. -/
def extractChannelName (text : String) : String :=
  match tgChannelSearch (splitFirstLine text.data).1 with
  | some cap => ⟨pyStrip cap⟩
  | none => ""

/-- ChannelRulesChecker.check: resolve the channel name (explicit argument if
non-empty, else extracted from the first line), look the lowercased name up in
the channel rules, and when a non-empty signature format is configured run the
signature check on the full text. -/
def channelCheck (rules : List (String × String)) (text : String)
    (channelName : Option String) : List ChannelError :=
  let name0 := match channelName with | some n => n | none => ""
  let name := if name0 = "" then extractChannelName text else name0
  if name = "" then []
  else
    match rules.lookup (strToLower name) with
    | none => []
    | some fmt => if fmt = "" then [] else checkSignatureFormat text fmt name

/-- The regex `@\w+` matches somewhere: some position holds `@` immediately
followed by a word character. -/
def HasHandle (l : List Char) : Prop :=
  ∃ i c, l[i]? = some '@' ∧ l[i + 1]? = some c ∧ pyIsWordChar c = true

theorem hasHandle_cons (c : Char) (rest : List Char) :
    HasHandle (c :: rest) ↔
      (c = '@' ∧ ∃ d, rest[0]? = some d ∧ pyIsWordChar d = true) ∨ HasHandle rest := by
  constructor
  · rintro ⟨i, d, h1, h2, h3⟩
    cases i with
    | zero =>
      left
      simp only [List.getElem?_cons_zero, Option.some.injEq] at h1
      simp only [List.getElem?_cons_succ] at h2
      exact ⟨h1, d, h2, h3⟩
    | succ j =>
      right
      exact ⟨j, d, by simpa using h1, by simpa using h2, h3⟩
  · rintro (⟨hc, d, hd, hw⟩ | ⟨i, d, h1, h2, h3⟩)
    · exact ⟨0, d, by simp [hc], by simpa using hd, hw⟩
    · exact ⟨i + 1, d, by simpa using h1, by simpa using h2, h3⟩

theorem handleSearchAux_eq_none_iff (l : List Char) :
    ∀ prev, handleSearchAux prev l = none ↔ ¬ HasHandle l := by
  induction l with
  | nil =>
    intro prev
    constructor
    · rintro _ ⟨i, d, h1, _, _⟩; simp at h1
    · intro _; rfl
  | cons c rest ih =>
    intro prev
    unfold handleSearchAux
    by_cases hc : handleMatchAt c rest = true
    · rw [if_pos hc]
      simp only [handleMatchAt, Bool.and_eq_true, beq_iff_eq] at hc
      obtain ⟨hat, hw⟩ := hc
      constructor
      · intro h; exact absurd h (by simp)
      · intro hno
        exfalso
        apply hno
        rw [hasHandle_cons]
        left
        refine ⟨hat, ?_⟩
        cases rest with
        | nil => simp at hw
        | cons d ds => exact ⟨d, by simp, hw⟩
    · rw [if_neg hc]
      rw [ih (some c)]
      rw [hasHandle_cons]
      constructor
      · intro hno h
        rcases h with ⟨hat, d, hd, hw⟩ | hh
        · apply hc
          simp only [handleMatchAt, Bool.and_eq_true, beq_iff_eq]
          refine ⟨hat, ?_⟩
          cases rest with
          | nil => simp at hd
          | cons e es =>
            simp only [List.getElem?_cons_zero, Option.some.injEq] at hd
            subst hd
            exact hw
        · exact hno hh
      · intro hno hh
        exact hno (Or.inr hh)

theorem handleSearch_eq_none_iff (l : List Char) :
    handleSearch l = none ↔ ¬ HasHandle l :=
  handleSearchAux_eq_none_iff l none

theorem channelError_ne_of_message_head (e1 e2 : ChannelError)
    (h : e1.message.data.head? ≠ e2.message.data.head?) : e1 ≠ e2 := by
  intro he
  exact h (by rw [he])

theorem newline_ne_missing (sig name fmt : String) :
    newlineSignatureError sig ≠ missingSignatureError name fmt := by
  apply channelError_ne_of_message_head
  have ha : (newlineSignatureError sig).message.data.head? = some 'П' := rfl
  have hb : (missingSignatureError name fmt).message.data.head? = some 'О' := rfl
  rw [ha, hb]
  simp

theorem space_ne_missing (sig name fmt : String) :
    spaceSignatureError sig ≠ missingSignatureError name fmt := by
  apply channelError_ne_of_message_head
  have ha : (spaceSignatureError sig).message.data.head? = some 'П' := rfl
  have hb : (missingSignatureError name fmt).message.data.head? = some 'О' := rfl
  rw [ha, hb]
  simp

/-- When the explicit channel name is non-empty, its lowercase form has a rule
with a non-empty signature format, ChannelRulesChecker.check reduces to the
signature-format check. -/
theorem channelCheck_resolved (rules : List (String × String)) (text name fmt : String)
    (h1 : ¬ name = "") (h2 : rules.lookup (strToLower name) = some fmt)
    (h3 : ¬ fmt = "") :
    channelCheck rules text (some name) = checkSignatureFormat text fmt name := by
  unfold channelCheck
  simp only [if_neg h1, h2, if_neg h3]

/-- Claim C10: whenever a channel name is resolved and the channel has a
non-empty signature rule, the checker searches for the handle token `@` plus
word characters in the full original text (first line included) and produces
the missing-signature finding exactly when no such token exists anywhere in
that full text; when the rule text contains neither the line-break nor the
space instruction keyword, a text containing any handle anywhere produces no
findings at all. -/
theorem channel_C10 (rules : List (String × String)) (text name fmt : String)
    (h1 : ¬ name = "") (h2 : rules.lookup (strToLower name) = some fmt)
    (h3 : ¬ fmt = "") :
    (channelCheck rules text (some name) = missingSignatureError name fmt :: [] ↔
      ¬ HasHandle text.data) ∧
    (listContainsSub ("перенос строки").data (strToLower fmt).data = false →
      listContainsSub ("пробел").data (strToLower fmt).data = false →
      HasHandle text.data → channelCheck rules text (some name) = []) := by
  rw [channelCheck_resolved rules text name fmt h1 h2 h3]
  constructor
  · unfold checkSignatureFormat
    cases hh : handleSearch text.data with
    | none =>
      have hnh := (handleSearch_eq_none_iff text.data).mp hh
      exact ⟨fun _ => hnh, fun _ => rfl⟩
    | some pr =>
      obtain ⟨prev, sig⟩ := pr
      have hhh : HasHandle text.data := by
        by_contra hn
        rw [← handleSearch_eq_none_iff] at hn
        rw [hh] at hn
        exact absurd hn (by simp)
      constructor
      · intro heq
        dsimp only at heq
        exfalso
        by_cases k1 : listContainsSub ("перенос строки").data (strToLower fmt).data = true
        · rw [if_pos k1] at heq
          by_cases kp : prev = none ∨ ¬ prev = some '\n'
          · rw [if_pos kp] at heq
            injection heq with he _
            exact newline_ne_missing ⟨sig⟩ name fmt he
          · rw [if_neg kp] at heq
            exact absurd heq (by simp)
        · rw [if_neg k1] at heq
          by_cases k2 : listContainsSub ("пробел").data (strToLower fmt).data = true
          · rw [if_pos k2] at heq
            by_cases kp : prev = some '\n'
            · rw [if_pos kp] at heq
              injection heq with he _
              exact space_ne_missing ⟨sig⟩ name fmt he
            · rw [if_neg kp] at heq
              exact absurd heq (by simp)
          · rw [if_neg k2] at heq
            exact absurd heq (by simp)
      · intro hn
        exact absurd hhh hn
  · intro k1 k2 hh
    unfold checkSignatureFormat
    obtain ⟨pr, hpr⟩ : ∃ pr, handleSearch text.data = some pr := by
      cases hsome : handleSearch text.data with
      | none =>
        exact absurd hh ((handleSearch_eq_none_iff _).mp hsome)
      | some pr => exact ⟨pr, rfl⟩
    rw [hpr]
    obtain ⟨prev, sig⟩ := pr
    simp [k1, k2]

/-- Witness for C10 at a concrete channel with no handle in the text. -/
theorem channel_C10_witness :
    channelCheck (("тест", "любой формат без ключей") :: []) ("привет без знака")
      (some ("Тест")) =
      missingSignatureError ("Тест") ("любой формат без ключей") :: [] := by
  have h := (channel_C10 (("тест", "любой формат без ключей") :: [])
    ("привет без знака") ("Тест") ("любой формат без ключей")
    (by decide) (by decide) (by decide)).1
  exact h.mpr ((handleSearch_eq_none_iff _).mp (by decide))

def rulesC1 : List (String × String) := ("тест", "Текст\n@good") :: []

def textC1 : String := "ТГ-канал Тест\nчто-то пишем @bad в середине"

/-- Counterexample to claim C1: the channel rule is a literal expected tail
(a real embedded line break, no instruction keyword), the body does not end
with that tail, yet the checker returns no finding at all, because the code
has no exact-suffix mode: with neither keyword present it only checks that
some handle token exists somewhere in the full text. -/
theorem channel_C1_counterexample :
    channelCheck rulesC1 textC1 none = [] ∧
    listContainsSub ("перенос строки").data (strToLower ("Текст\n@good")).data = false ∧
    listContainsSub ("пробел").data (strToLower ("Текст\n@good")).data = false ∧
    (splitFirstLine textC1.data).2 = some (("что-то пишем @bad в середине").data) ∧
    ("Текст\n@good").data.isSuffixOf (("что-то пишем @bad в середине").data) = false := by
  decide

/-- Claim C1 as amended: for a channel whose rule text contains neither the
line-break instruction nor the space instruction (in particular a literal
expected tail), the checker never compares the body with the tail; it returns
exactly one missing-signature finding carrying the rule text verbatim as its
expected format (no visible line-break marker is rendered) when no handle
token occurs anywhere in the full text, and no finding otherwise. -/
theorem channel_C1_amended (rules : List (String × String)) (text name fmt : String)
    (h1 : ¬ name = "") (h2 : rules.lookup (strToLower name) = some fmt)
    (h3 : ¬ fmt = "")
    (h4 : listContainsSub ("перенос строки").data (strToLower fmt).data = false)
    (h5 : listContainsSub ("пробел").data (strToLower fmt).data = false) :
    channelCheck rules text (some name) =
      match handleSearch text.data with
      | none => missingSignatureError name fmt :: []
      | some _ => [] := by
  rw [channelCheck_resolved rules text name fmt h1 h2 h3]
  unfold checkSignatureFormat
  cases hh : handleSearch text.data with
  | none => rfl
  | some pr =>
    obtain ⟨prev, sig⟩ := pr
    simp [h4, h5]

/-- Witness for the amended C1 at a concrete literal-tail rule. -/
theorem channel_C1_witness :
    channelCheck (("канал", "Подпись\n@good") :: []) ("нет знака тут") (some ("Канал")) =
      missingSignatureError ("Канал") ("Подпись\n@good") :: [] := by
  have h := channel_C1_amended (("канал", "Подпись\n@good") :: []) ("нет знака тут")
    ("Канал") ("Подпись\n@good") (by decide) (by decide) (by decide) (by decide) (by decide)
  rw [h]
  decide

def rulesC5 : List (String × String) :=
  ("тест", "подпись с новой строки через перенос строки") :: []

def textC5 : String := "ТГ-канал Тест @adm\nтело поста\n@adm"

/-- Counterexample to claim C5: under line-break mode the checker takes the
first handle of the full text — here the one in the first line, preceded by a
space — and reports it, although the body's handle is correctly preceded by a
line break; under the claim (handle located in the body only) there would be
no finding. -/
theorem channel_C5_counterexample :
    channelCheck rulesC5 textC5 (some ("Тест")) = newlineSignatureError ("@adm") :: [] ∧
    (splitFirstLine textC5.data).2 = some (("тело поста\n@adm").data) ∧
    handleSearch ("тело поста\n@adm").data = some (some '\n', ("@adm").data) := by
  decide

/-- Claim C5 as amended: in line-break mode the handle token is located
anywhere in the full original text (first line included), not only in the
body; the first such handle yields a channel finding exactly when the
character immediately preceding it is missing (position zero) or is not a
line break; if no handle occurs anywhere in the full text, exactly one
missing-signature finding is returned. -/
theorem channel_C5_amended (text fmt name : String)
    (h : listContainsSub ("перенос строки").data (strToLower fmt).data = true) :
    checkSignatureFormat text fmt name =
      match handleSearch text.data with
      | none => missingSignatureError name fmt :: []
      | some (prev, sig) =>
        if prev = some '\n' then [] else newlineSignatureError ⟨sig⟩ :: [] := by
  unfold checkSignatureFormat
  cases hh : handleSearch text.data with
  | none => rfl
  | some pr =>
    obtain ⟨prev, sig⟩ := pr
    dsimp only
    rw [if_pos h]
    by_cases hp : prev = some '\n'
    · have hcond : ¬ (prev = none ∨ ¬ prev = some '\n') := by
        rintro (h0 | hne)
        · rw [h0] at hp
          exact absurd hp (by simp)
        · exact hne hp
      rw [if_neg hcond, if_pos hp]
    · have hcond : prev = none ∨ ¬ prev = some '\n' := Or.inr hp
      rw [if_pos hcond, if_neg hp]

/-- Witness for the amended C5: a body handle right after a line break is
accepted, a handle after a space is reported. -/
theorem channel_C5_witness :
    checkSignatureFormat ("тело\n@adm") ("перенос строки") ("Тест") = [] ∧
    checkSignatureFormat ("тело @adm") ("перенос строки") ("Тест") =
      newlineSignatureError ("@adm") :: [] := by
  constructor
  · rw [channel_C5_amended ("тело\n@adm") ("перенос строки") ("Тест") (by decide)]
    decide
  · rw [channel_C5_amended ("тело @adm") ("перенос строки") ("Тест") (by decide)]
    decide

/-- One entry of the Yandex speller response: `{word, s}`. -/
structure SpellerEntry where
  word : String
  s : List String
deriving DecidableEq, Repr

/-- A spelling finding: the dict `{type, word, suggestions, message}`. -/
structure SpellError where
  type : String
  word : String
  suggestions : List String
  message : String
deriving DecidableEq, Repr

/-- SpellingChecker.__init__: the ignore list is lowercased once. -/
def mkIgnoreWords (ws : List String) : List String := ws.map strToLower

def mkSpellError (e : SpellerEntry) : SpellError :=
  ⟨"spelling", e.word, e.s, "Орфографическая ошибка"⟩

/-- SpellingChecker._format_errors: drop entries whose lowercased word is in
the (pre-lowercased) ignore list, keep the rest in order with the full
suggestion list. -/
def spellingFormatErrors (ignoreLower : List String) : List SpellerEntry → List SpellError
  | [] => []
  | e :: es =>
    if ignoreLower.contains (strToLower e.word) then spellingFormatErrors ignoreLower es
    else mkSpellError e :: spellingFormatErrors ignoreLower es

/-- Claim C9: for every oracle response, the retained spelling findings are
exactly the entries whose lowercased word is not in the case-folded ignore
list, in the oracle's order, each carrying the misspelled word and the full
suggestion list without truncation (truncation to maxSuggestions happens only
in the formatter). -/
theorem spelling_C9 (ignore : List String) (errors : List SpellerEntry) :
    spellingFormatErrors (mkIgnoreWords ignore) errors =
      (errors.filter
        (fun e => !(mkIgnoreWords ignore).contains (strToLower e.word))).map mkSpellError := by
  induction errors with
  | nil => rfl
  | cons e es ih =>
    simp only [spellingFormatErrors, List.filter_cons, ih]
    by_cases hp : strToLower e.word ∈ mkIgnoreWords ignore
    · simp [hp]
    · simp [hp]

/-- The response configuration of the formatter. -/
structure RespConfig where
  show_suggestions_count : Nat
  show_emoji : Bool
deriving DecidableEq, Repr

/-- The aggregated results dict of TextChecker._perform_checks: all four
categories are always present. -/
structure CheckResults where
  spelling : List SpellError
  custom : List WordError
  spaces : List WordError
  channel : List ChannelError
deriving DecidableEq, Repr

def totalErrors (r : CheckResults) : Nat :=
  r.spelling.length + r.custom.length + r.spaces.length + r.channel.length

/-- Render `f i x` for each element, numbering from the start index, and
concatenate — Python `enumerate(errors, 1)` inside a string build. -/
def joinNumbered {α : Type} (f : Nat → α → String) : Nat → List α → String
  | _, [] => ""
  | i, x :: xs => f i x ++ joinNumbered f (i + 1) xs

def formatNoErrors (c : RespConfig) : String :=
  if c.show_emoji then ("✅ Ошибок не найдено!") else ("Ошибок не найдено!")

def formatHeader (c : RespConfig) (total : Nat) : String :=
  (if c.show_emoji then ("❌") else ("")) ++ " Найдено ошибок: " ++ toString total ++ "\n\n"

def formatCustomErrors (c : RespConfig) (errors : List WordError) : String :=
  if errors = [] then ("")
  else
    (if c.show_emoji then ("📌 ") else ("")) ++ "**Неправильное написание:**\n" ++
      joinNumbered (fun i e =>
        toString i ++ ". «" ++ e.word ++ "» → «" ++ e.suggestion ++ "»\n") 1 errors ++ "\n"

def formatSpellingErrors (c : RespConfig) (errors : List SpellError) : String :=
  if errors = [] then ("")
  else
    (if c.show_emoji then ("📝 ") else ("")) ++ "**Орфография:**\n" ++
      joinNumbered (fun i e =>
        let sugg := e.suggestions.take c.show_suggestions_count
        if sugg = [] then toString i ++ ". «" ++ e.word ++ "» — нет вариантов\n"
        else
          toString i ++ ". «" ++ e.word ++ "» → " ++
            String.intercalate (", ") (sugg.map (fun s => "«" ++ s ++ "»")) ++ "\n") 1 errors ++ "\n"

def formatSpaceErrors (c : RespConfig) (errors : List WordError) : String :=
  if errors = [] then ("")
  else
    (if c.show_emoji then ("⎵ ") else ("")) ++ "**Пробелы:**\n" ++
      joinNumbered (fun i e =>
        toString i ++ ". " ++ e.message ++ ": «" ++ e.word ++ "» → «" ++
          e.suggestion ++ "»\n") 1 errors

/-- The characters escaped for Markdown in the channel section. -/
def mdSpecialChars : List Char :=
  ['_', '*', '[', ']', '(', ')', '~', '\x60', '>', '#', '+', '-', '=', '|',
    '\x7b', '\x7d', '.', '!']

/-- The chain of `str.replace` calls: each special character gets a backslash
in front of it (the replacements never interfere with each other). -/
def escapeMarkdown (s : String) : String :=
  ⟨s.data.flatMap (fun ch => if mdSpecialChars.contains ch then '\\' :: ch :: [] else ch :: [])⟩

def formatChannelErrors (c : RespConfig) (errors : List ChannelError) : String :=
  if errors = [] then ("")
  else
    "\n" ++ (if c.show_emoji then ("📢 ") else ("")) ++ "**Правила канала:**\n" ++
      joinNumbered (fun i e =>
        if e.expected = "" then toString i ++ ". " ++ e.message ++ "\n"
        else
          toString i ++ ". " ++ e.message ++ "\n   Ожидается: " ++
            escapeMarkdown e.expected ++ "\n") 1 errors

/-- ErrorFormatter.format: the affirmative no-errors message at zero findings,
otherwise a header with the total count followed by the four sections in the
fixed order custom, spelling, spaces, channel. -/
def formatReport (c : RespConfig) (r : CheckResults) : String :=
  if totalErrors r = 0 then formatNoErrors c
  else
    formatHeader c (totalErrors r) ++ formatCustomErrors c r.custom ++
      formatSpellingErrors c r.spelling ++ formatSpaceErrors c r.spaces ++
      formatChannelErrors c r.channel

theorem formatNoErrors_ne_empty (c : RespConfig) : ¬ formatNoErrors c = "" := by
  unfold formatNoErrors
  cases he : c.show_emoji
  · rw [if_neg (by simp [he])]
    decide
  · rw [if_pos (by simp [he])]
    decide

theorem formatReport_ne_empty (c : RespConfig) (r : CheckResults) :
    ¬ formatReport c r = "" := by
  unfold formatReport
  by_cases h : totalErrors r = 0
  · rw [if_pos h]
    exact formatNoErrors_ne_empty c
  · rw [if_neg h]
    intro habs
    have hlen := congrArg String.length habs
    simp only [String.length_append] at hlen
    have h1 : 1 ≤ (formatHeader c (totalErrors r)).length := by
      unfold formatHeader
      simp only [String.length_append]
      have h2 : 1 ≤ (" Найдено ошибок: " : String).length := by decide
      omega
    have h0 : ("" : String).length = 0 := by decide
    omega

/-- The four feature toggles under the `checks` key of the configuration. -/
structure Checks where
  spelling : Bool
  custom_rules : Bool
  spaces : Bool
  channel_rules : Bool
deriving DecidableEq, Repr

/-- The configuration snapshot the checkers are built from (the keys the code
reads, with the `.get` defaults already resolved). -/
structure Config where
  checks : Checks
  ignore_words : List String
  custom_rules : List CustomRule
  channel_rules : List (String × String)
  space_checks : SpaceChecks
  response : RespConfig
  min_text_length : Nat
deriving DecidableEq, Repr

/-- SpellingChecker.check on the success path: the external oracle is a
parameter; its failure path (empty result) is the oracle returning `[]`. -/
def spellingCheckRun (speller : String → List SpellerEntry) (cfg : Config)
    (text : String) : List SpellError :=
  spellingFormatErrors (mkIgnoreWords cfg.ignore_words) (speller text)

/-- TextChecker._perform_checks: the results dict starts with all four
categories empty; the checkers run in the fixed order custom, spelling,
spaces, channel, each behind its own `is_enabled` gate — for the channel
checker that gate is non-emptiness of the channel rules, not the
`checks.channel_rules` toggle. -/
def performChecks (cfg : Config) (speller : String → List SpellerEntry)
    (fullText body : String) : CheckResults :=
  let r0 : CheckResults := ⟨[], [], [], []⟩
  let r1 := if cfg.checks.custom_rules then
      { r0 with custom := customRulesCheck cfg.custom_rules body } else r0
  let r2 := if cfg.checks.spelling then
      { r1 with spelling := spellingCheckRun speller cfg body } else r1
  let r3 := if cfg.checks.spaces then
      { r2 with spaces := spaceCheck cfg.space_checks body } else r2
  if 0 < cfg.channel_rules.length then
    { r3 with channel := channelCheck cfg.channel_rules fullText none } else r3

/-- Claim C4 as amended: the aggregate always carries all four categories; a
category whose checker did not run is the empty list; custom rules, spelling
and spacing run exactly when their feature toggles are enabled, while the
channel checker runs exactly when the channel-rules mapping is non-empty,
regardless of the `checks.channel_rules` toggle. -/
theorem orchestrator_C4_amended (cfg : Config) (speller : String → List SpellerEntry)
    (fullText body : String) :
    performChecks cfg speller fullText body =
      { custom := if cfg.checks.custom_rules then customRulesCheck cfg.custom_rules body else [],
        spelling := if cfg.checks.spelling then spellingCheckRun speller cfg body else [],
        spaces := if cfg.checks.spaces then spaceCheck cfg.space_checks body else [],
        channel := if 0 < cfg.channel_rules.length then
            channelCheck cfg.channel_rules fullText none else [] } := by
  unfold performChecks
  by_cases h1 : cfg.checks.custom_rules = true <;>
    by_cases h2 : cfg.checks.spelling = true <;>
      by_cases h3 : cfg.checks.spaces = true <;>
        by_cases h4 : 0 < cfg.channel_rules.length <;>
          simp [h1, h2, h3, h4]

def speller0 : String → List SpellerEntry := fun _ => []

def cfgC4 : Config :=
  { checks := ⟨false, false, false, false⟩,
    ignore_words := [],
    custom_rules := [],
    channel_rules := ("тест", "подпись через пробел") :: [],
    space_checks := ⟨true, true, true⟩,
    response := ⟨3, true⟩,
    min_text_length := 50 }

/-- Counterexample to claim C4: every feature toggle of the configuration is
disabled, including `checks.channel_rules`, yet the channel checker runs
(its gate is non-emptiness of the channel-rules mapping) and produces a
finding. -/
theorem orchestrator_C4_counterexample :
    cfgC4.checks.channel_rules = false ∧
    (performChecks cfgC4 speller0 ("ТГ-канал Тест\nтекст\n@adm")
      ("текст\n@adm")).channel = spaceSignatureError ("@adm") :: [] := by
  constructor
  · rfl
  · decide

/-- TextChecker.check_text after the reload step: validate, short-circuit on
a non-reviewable message with the empty string, otherwise run the checks on
the body (full text for the channel checker) and format the result. -/
def checkTextCore (cfg : Config) (speller : String → List SpellerEntry)
    (text : String) : String :=
  match validateAndExtract cfg.min_text_length text with
  | (true, some body) => formatReport cfg.response (performChecks cfg speller text body)
  | _ => ""

theorem validateAndExtract_shape (minLen : Nat) (text : String) :
    validateAndExtract minLen text = (false, none) ∨
      ∃ b, validateAndExtract minLen text = (true, some b) := by
  unfold validateAndExtract
  by_cases h : isRaytersMessage text = false
  · rw [if_pos h]; left; rfl
  · rw [if_neg h]
    cases hext : extractTextToCheck minLen text with
    | none => left; rfl
    | some b => right; exact ⟨b, rfl⟩

/-- Claim C2: check_text returns the empty string exactly when the message is
not reviewable; a reviewable message whose checks produce zero findings gets
the non-empty affirmative no-errors message, so no-report and
report-without-errors are always distinguishable. -/
theorem pipeline_C2 (cfg : Config) (speller : String → List SpellerEntry)
    (text : String) :
    (checkTextCore cfg speller text = "" ↔
      (validateAndExtract cfg.min_text_length text).1 = false) ∧
    (∀ body, validateAndExtract cfg.min_text_length text = (true, some body) →
      totalErrors (performChecks cfg speller text body) = 0 →
      checkTextCore cfg speller text = formatNoErrors cfg.response ∧
        ¬ formatNoErrors cfg.response = "") := by
  rcases validateAndExtract_shape cfg.min_text_length text with hsh | ⟨b, hsh⟩
  · constructor
    · unfold checkTextCore
      rw [hsh]
      simp
    · intro body heq
      rw [hsh] at heq
      exact absurd heq (by simp)
  · constructor
    · unfold checkTextCore
      rw [hsh]
      constructor
      · intro habs
        exact absurd habs (formatReport_ne_empty cfg.response _)
      · intro hfalse
        exact absurd hfalse (by simp)
    · intro body heq htot
      rw [hsh] at heq
      injection heq with _ he2
      injection he2 with he3
      subst he3
      constructor
      · unfold checkTextCore
        rw [hsh]
        dsimp only
        unfold formatReport
        rw [if_pos htot]
      · exact formatNoErrors_ne_empty cfg.response

def cfgW : Config :=
  { checks := ⟨true, true, true, true⟩,
    ignore_words := [],
    custom_rules := [],
    channel_rules := [],
    space_checks := ⟨true, true, true⟩,
    response := ⟨3, true⟩,
    min_text_length := 10 }

/-- Witness for C2 at a concrete reviewable message with zero findings. -/
theorem pipeline_C2_witness :
    checkTextCore cfgW speller0 ("t.me/x\nПравильный текст без ошибок") =
      "✅ Ошибок не найдено!" := by
  have h := (pipeline_C2 cfgW speller0 ("t.me/x\nПравильный текст без ошибок")).2
    ("Правильный текст без ошибок") (by decide) (by decide)
  rw [h.1]
  decide

/-- The two tabular feeds of the external sheet source, already parsed. -/
structure SheetData where
  custom_rules : List CustomRule
  channel_rules : List (String × String)
deriving DecidableEq, Repr

/-- The external world the loader reads: the config file with its modification
time, and the optional sheet source. -/
structure FileSystem where
  mtime : Nat
  fileConfig : Config
  sheets : Option SheetData
deriving DecidableEq, Repr

/-- ConfigLoader state: the current snapshot and the last modification time
seen. -/
structure LoaderState where
  config : Config
  last_modified : Nat
deriving DecidableEq, Repr

/-- ConfigLoader._load_from_google_sheets: when the sheet source is available,
non-empty feeds override the file's custom rules and channel rules. -/
def applySheets (sd : Option SheetData) (c : Config) : Config :=
  match sd with
  | none => c
  | some d =>
    let c1 := if d.custom_rules = [] then c else { c with custom_rules := d.custom_rules }
    if d.channel_rules = [] then c1 else { c1 with channel_rules := d.channel_rules }

/-- ConfigLoader._load: the file (and then the sheet feeds) is re-read only
when the file's modification time is strictly newer than the one last seen;
otherwise the previous snapshot stays. -/
def loadStep (fs : FileSystem) (s : LoaderState) : LoaderState :=
  if s.last_modified < fs.mtime then
    { config := applySheets fs.sheets fs.fileConfig, last_modified := fs.mtime }
  else s

/-- TextChecker.check_text: every invocation first runs the reload check and
rebuilds the components from the resulting snapshot, then processes the text. -/
def checkTextStateful (fs : FileSystem) (s : LoaderState)
    (speller : String → List SpellerEntry) (text : String) : String × LoaderState :=
  let s2 := loadStep fs s
  (checkTextCore s2.config speller text, s2)

def ruleGiga : CustomRule := ⟨"Гига чат", "Гигачат", false⟩

def ruleChat : CustomRule := ⟨"Chat GPT", "ChatGPT", false⟩

def fileCfgC6 : Config :=
  { checks := ⟨false, true, true, false⟩,
    ignore_words := [],
    custom_rules := [],
    channel_rules := [],
    space_checks := ⟨true, true, true⟩,
    response := ⟨3, true⟩,
    min_text_length := 10 }

def fsC6a : FileSystem := ⟨1, fileCfgC6, some ⟨ruleGiga :: [], []⟩⟩

def stateC6 : LoaderState := loadStep fsC6a ⟨fileCfgC6, 0⟩

def fsC6b : FileSystem := ⟨1, fileCfgC6, some ⟨ruleGiga :: ruleChat :: [], []⟩⟩

def textC6 : String := "t.me/x\nЭтот пост рассказывает про Chat GPT без ошибок"

/-- Counterexample to claim C6: one custom rule is added to the sheet source
while the config file's modification time stays unchanged; the very next
check invocation keeps the old snapshot (the added rule is missing) and
reports no errors on a text that the new rule would flag. -/
theorem reload_C6_counterexample :
    (loadStep fsC6b stateC6).config.custom_rules = ruleGiga :: [] ∧
    fsC6b.sheets = some ⟨ruleGiga :: ruleChat :: [], []⟩ ∧
    (checkTextStateful fsC6b stateC6 speller0 textC6).1 = "✅ Ошибок не найдено!" ∧
    customRulesCheck (ruleChat :: []) ("Этот пост рассказывает про Chat GPT без ошибок") =
      ⟨"custom", "Chat GPT", "ChatGPT", "Неправильное написание"⟩ :: [] := by
  refine ⟨by decide, rfl, by decide, by decide⟩

/-- Claim C6 as amended: when the rule-source update is visible as a strictly
newer modification time of the config file, the very next check invocation
uses exactly the fresh snapshot (file contents with the sheet overrides) —
no explicit reload call from the caller is needed; an update only in the
sheet source, without a file modification-time change, is not picked up. -/
theorem reload_C6_amended (fs : FileSystem) (s : LoaderState)
    (speller : String → List SpellerEntry) (text : String)
    (h : s.last_modified < fs.mtime) :
    (checkTextStateful fs s speller text).1 =
      checkTextCore (applySheets fs.sheets fs.fileConfig) speller text ∧
    (checkTextStateful fs s speller text).2.config =
      applySheets fs.sheets fs.fileConfig := by
  unfold checkTextStateful loadStep
  rw [if_pos h]
  exact ⟨rfl, rfl⟩

/-- Witness for the amended C6: the first load picks the sheet rules up. -/
theorem reload_C6_witness :
    (checkTextStateful fsC6a ⟨fileCfgC6, 0⟩ speller0 textC6).2.config.custom_rules =
      ruleGiga :: [] := by
  have h := reload_C6_amended fsC6a ⟨fileCfgC6, 0⟩ speller0 textC6 (by decide)
  rw [h.2]
  decide
